import Mathlib

/-!
Verification model of the key/value put command
(source: src/commands/kv/key/put.rs).

The development shallowly embeds the Rust source:

* the JSON values handled by the external JSON library are modelled by
  `KVPut.JsonValue`, and its text-to-value parser by `KVPut.from_str`
  (a fuel-based recursive-descent parser over the JSON grammar);
* the external regular-expression library is modelled by a small engine
  (`KVPut.Regex.new`, `KVPut.Regex.is_match`) covering exactly the syntax
  fragment used by the one pattern occurring in the source;
* filesystem and network effects are passed in explicitly through
  `KVPut.Env`, so `put`, `get_response` and `get_request_body` are pure
  functions of the request data and of the answers the environment gives.
-/

namespace KVPut

/-- JSON values as produced by the external JSON library; a number keeps
its source lexeme, which is all the put command ever needs of it. -/
inductive JsonValue where
  | null
  | bool (b : Bool)
  | num (lexeme : String)
  | str (s : String)
  | arr (elems : List JsonValue)
  | obj (members : List (String × JsonValue))

/-- Whitespace accepted between JSON tokens. -/
def jsonWs (c : Char) : Bool := c = ' ' || c = '\t' || c = '\n' || c = '\r'

/-- Drop leading JSON whitespace. -/
def skipWs (cs : List Char) : List Char := cs.dropWhile jsonWs

/-- Decimal digit test. -/
def isDigit (c : Char) : Bool := '0' ≤ c && c ≤ '9'

/-- Hexadecimal digit test. -/
def isHex (c : Char) : Bool := isDigit c || ('a' ≤ c && c ≤ 'f') || ('A' ≤ c && c ≤ 'F')

/-- Value of a hexadecimal digit. -/
def hexVal (c : Char) : Nat :=
  if isDigit c then c.toNat - 48
  else if 'a' ≤ c && c ≤ 'f' then c.toNat - 87
  else c.toNat - 55

/-- Strip an expected literal prefix from a character list. -/
def stripPfx : List Char → List Char → Option (List Char)
  | [], cs => some cs
  | p :: ps, c :: cs => if c = p then stripPfx ps cs else none
  | _ :: _, [] => none

/-- Split a character list into its leading digits and the remainder. -/
def takeDigits (cs : List Char) : List Char × List Char :=
  (cs.takeWhile isDigit, cs.dropWhile isDigit)

/-- Decode a single-character JSON string escape. -/
def decodeEsc (c : Char) : Option Char :=
  if c = '\x22' then some '\x22'
  else if c = '\\' then some '\\'
  else if c = '/' then some '/'
  else if c = 'b' then some '\x08'
  else if c = 'f' then some '\x0c'
  else if c = 'n' then some '\n'
  else if c = 'r' then some '\r'
  else if c = 't' then some '\t'
  else none

/-- Parse the body of a JSON string literal, after the opening quote;
returns the decoded characters and the input following the closing quote. -/
def pString : List Char → Except String (List Char × List Char)
  | [] => .error "unterminated string"
  | '\x22' :: rest => .ok ([], rest)
  | '\\' :: 'u' :: a :: b :: c :: d :: rest =>
    if isHex a && isHex b && isHex c && isHex d then
      match pString rest with
      | .ok (body, r) =>
        .ok (Char.ofNat (((hexVal a * 16 + hexVal b) * 16 + hexVal c) * 16 + hexVal d) :: body, r)
      | .error e => .error e
    else .error "invalid unicode escape"
  | '\\' :: e :: rest =>
    match decodeEsc e with
    | some ch =>
      match pString rest with
      | .ok (body, r) => .ok (ch :: body, r)
      | .error err => .error err
    | none => .error "invalid escape"
  | c :: rest =>
    if c.toNat < 32 then .error "control character in string"
    else
      match pString rest with
      | .ok (body, r) => .ok (c :: body, r)
      | .error e => .error e

/-- Parse the integer part of a JSON number (no leading zeros). -/
def pIntPart : List Char → Except String (List Char × List Char)
  | [] => .error "expected digits"
  | c :: rest =>
    if c = '0' then .ok (['0'], rest)
    else if isDigit c then
      let (ds, r) := takeDigits rest
      .ok (c :: ds, r)
    else .error "invalid number"

/-- Parse an optional fractional part of a JSON number. -/
def pFracPart : List Char → Except String (List Char × List Char)
  | '.' :: rest =>
    let (ds, r) := takeDigits rest
    if ds.isEmpty then .error "expected digits after decimal point"
    else .ok ('.' :: ds, r)
  | cs => .ok ([], cs)

/-- Parse an optional exponent part of a JSON number. -/
def pExpPart : List Char → Except String (List Char × List Char)
  | [] => .ok ([], [])
  | c :: rest =>
    if c = 'e' || c = 'E' then
      let (sgn, r1) :=
        match rest with
        | s :: r => if s = '+' || s = '-' then ([s], r) else (([] : List Char), s :: r)
        | [] => (([] : List Char), ([] : List Char))
      let (ds, r2) := takeDigits r1
      if ds.isEmpty then .error "expected exponent digits"
      else .ok (c :: (sgn ++ ds), r2)
    else .ok ([], c :: rest)

/-- Parse a complete JSON number starting at the given input, returning
its lexeme and the remaining input. -/
def pNumber (cs : List Char) : Except String (String × List Char) :=
  let (neg, cs1) :=
    match cs with
    | '-' :: r => (true, r)
    | _ => (false, cs)
  match pIntPart cs1 with
  | .error e => .error e
  | .ok (ip, r1) =>
    match pFracPart r1 with
    | .error e => .error e
    | .ok (fp, r2) =>
      match pExpPart r2 with
      | .error e => .error e
      | .ok (ep, r3) =>
        .ok (String.mk ((if neg then ['-'] else []) ++ ip ++ fp ++ ep), r3)

/-- Intermediate results of the recursive-descent JSON parser. -/
inductive PRes where
  | v (val : JsonValue)
  | vs (vals : List JsonValue)
  | ms (members : List (String × JsonValue))

/-- Parsing modes of the recursive-descent JSON parser: a single value,
the element list of an array after its first bracket, or the member list
of an object after its first brace. -/
inductive PMode where
  | value
  | elems
  | members

/-- Fuel-indexed recursive-descent parser for JSON text, modelling the
external JSON library used by parse_metadata. -/
def pJson : Nat → PMode → List Char → Except String (PRes × List Char)
  | 0, _, _ => .error "recursion limit exceeded"
  | fuel + 1, PMode.value, cs =>
    match skipWs cs with
    | [] => .error "expected value"
    | c :: rest =>
      if c = 'n' then
        match stripPfx ['u', 'l', 'l'] rest with
        | some r => .ok (PRes.v JsonValue.null, r)
        | none => .error "expected value"
      else if c = 't' then
        match stripPfx ['r', 'u', 'e'] rest with
        | some r => .ok (PRes.v (JsonValue.bool true), r)
        | none => .error "expected value"
      else if c = 'f' then
        match stripPfx ['a', 'l', 's', 'e'] rest with
        | some r => .ok (PRes.v (JsonValue.bool false), r)
        | none => .error "expected value"
      else if c = '\x22' then
        match pString rest with
        | .ok (body, r) => .ok (PRes.v (JsonValue.str (String.mk body)), r)
        | .error e => .error e
      else if c = '[' then
        match skipWs rest with
        | ']' :: r => .ok (PRes.v (JsonValue.arr []), r)
        | cs2 =>
          match pJson fuel PMode.elems cs2 with
          | .ok (PRes.vs vals, r) => .ok (PRes.v (JsonValue.arr vals), r)
          | .ok (_, _) => .error "internal parser error"
          | .error e => .error e
      else if c = '\x7b' then
        match skipWs rest with
        | '\x7d' :: r => .ok (PRes.v (JsonValue.obj []), r)
        | cs2 =>
          match pJson fuel PMode.members cs2 with
          | .ok (PRes.ms mem, r) => .ok (PRes.v (JsonValue.obj mem), r)
          | .ok (_, _) => .error "internal parser error"
          | .error e => .error e
      else if c = '-' || isDigit c then
        match pNumber (c :: rest) with
        | .ok (lex, r) => .ok (PRes.v (JsonValue.num lex), r)
        | .error e => .error e
      else .error "expected value"
  | fuel + 1, PMode.elems, cs =>
    match pJson fuel PMode.value cs with
    | .error e => .error e
    | .ok (PRes.v v, r) =>
      (match skipWs r with
       | ',' :: r2 =>
         match pJson fuel PMode.elems r2 with
         | .ok (PRes.vs vals, r3) => .ok (PRes.vs (v :: vals), r3)
         | .ok (_, _) => .error "internal parser error"
         | .error e => .error e
       | ']' :: r2 => .ok (PRes.vs [v], r2)
       | _ => .error "expected comma or end of array")
    | .ok (_, _) => .error "internal parser error"
  | fuel + 1, PMode.members, cs =>
    match skipWs cs with
    | '\x22' :: rest =>
      (match pString rest with
       | .error e => .error e
       | .ok (key, r) =>
         match skipWs r with
         | ':' :: r2 =>
           (match pJson fuel PMode.value r2 with
            | .error e => .error e
            | .ok (PRes.v v, r3) =>
              (match skipWs r3 with
               | ',' :: r4 =>
                 (match pJson fuel PMode.members r4 with
                  | .ok (PRes.ms mem, r5) => .ok (PRes.ms ((String.mk key, v) :: mem), r5)
                  | .ok (_, _) => .error "internal parser error"
                  | .error e => .error e)
               | '\x7d' :: r4 => .ok (PRes.ms [(String.mk key, v)], r4)
               | _ => .error "expected comma or end of object")
            | .ok (_, _) => .error "internal parser error")
         | _ => .error "expected colon")
    | _ => .error "key must be a string"

/-- Model of the external JSON library entry point used by the source:
parse a whole string as one JSON value, allowing surrounding whitespace
and rejecting trailing input. -/
def from_str (s : String) : Except String JsonValue :=
  match pJson (2 * s.length + 8) PMode.value s.data with
  | .ok (PRes.v v, rest) =>
    if (skipWs rest).isEmpty then .ok v else .error "trailing characters"
  | .ok (_, _) => .error "internal parser error"
  | .error e => .error e

/-! Model of the external regular-expression library, restricted to the
syntax fragment the source uses: a leading start anchor, a trailing end
anchor, literal characters, backslash escapes, character classes with
optional negation, and the postfix one-or-zero and zero-or-more
quantifiers. -/

/-- Single regular-expression item: a literal character or a character
class, the latter with a negation flag. -/
inductive RItem where
  | lit (c : Char)
  | cls (neg : Bool) (chars : List Char)

/-- Quantifier attached to an item. -/
inductive Quant where
  | one
  | opt
  | star

/-- Compiled pattern: anchoring flags plus the quantified item list. -/
structure Regex where
  anchoredStart : Bool
  anchoredEnd : Bool
  elems : List (RItem × Quant)

/-- Boolean membership of a character in an explicit list. -/
def charIn : List Char → Char → Bool
  | [], _ => false
  | c0 :: cs, c => c == c0 || charIn cs c

/-- Does a single item accept a character. -/
def RItem.accepts : RItem → Char → Bool
  | .lit c0, c => c == c0
  | .cls neg chars, c => if neg then !(charIn chars c) else charIn chars c

/-- Parse the body of a character class, after the opening bracket and
optional negation mark, up to the closing bracket. -/
def pClassBody : List Char → Except String (List Char × List Char)
  | [] => .error "unterminated character class"
  | ']' :: rest => .ok ([], rest)
  | '\\' :: c :: rest =>
    match pClassBody rest with
    | .ok (cs2, r) => .ok (c :: cs2, r)
    | .error e => .error e
  | '\\' :: [] => .error "dangling escape"
  | c :: rest =>
    match pClassBody rest with
    | .ok (cs2, r) => .ok (c :: cs2, r)
    | .error e => .error e

/-- Parse one regular-expression item starting with the given character. -/
def pOneItem : Char → List Char → Except String (RItem × List Char)
  | '[', rest =>
    (match rest with
     | '^' :: rest2 =>
       (match pClassBody rest2 with
        | .ok (cs, r) => .ok (RItem.cls true cs, r)
        | .error e => .error e)
     | _ =>
       match pClassBody rest with
       | .ok (cs, r) => .ok (RItem.cls false cs, r)
       | .error e => .error e)
  | '\\', rest =>
    (match rest with
     | c :: r => .ok (RItem.lit c, r)
     | [] => .error "dangling escape")
  | c, rest =>
    if c = '^' || c = '$' || c = '?' || c = '*' || c = ']' then
      .error "unsupported pattern construct"
    else .ok (RItem.lit c, rest)

/-- Parse the item list of a pattern, attaching postfix quantifiers. -/
def pItems : Nat → List Char → Except String (List (RItem × Quant))
  | 0, _ => .error "recursion limit exceeded"
  | _ + 1, [] => .ok []
  | fuel + 1, c :: rest =>
    match pOneItem c rest with
    | .error e => .error e
    | .ok (item, rest2) =>
      match rest2 with
      | '?' :: r3 =>
        (match pItems fuel r3 with
         | .ok es => .ok ((item, Quant.opt) :: es)
         | .error e => .error e)
      | '*' :: r3 =>
        (match pItems fuel r3 with
         | .ok es => .ok ((item, Quant.star) :: es)
         | .error e => .error e)
      | _ =>
        match pItems fuel rest2 with
        | .ok es => .ok ((item, Quant.one) :: es)
        | .error e => .error e

/-- Compile a pattern string, modelling the fallible constructor of the
external regular-expression library. -/
def Regex.new (pat : String) : Except String Regex :=
  let cs := pat.data
  let p1 :=
    match cs with
    | '^' :: rest => (true, rest)
    | _ => (false, cs)
  let p2 :=
    match p1.2.reverse with
    | '$' :: restRev => (true, restRev.reverse)
    | _ => (false, p1.2)
  match pItems (p2.2.length + 1) p2.2 with
  | .ok es => .ok ⟨p1.1, p2.1, es⟩
  | .error e => .error e

/-- Fuel-indexed matcher: do the quantified items consume the whole
character list. Fuel strictly dominates the sum of the two list lengths
at every call, so the wrapper below is total on its supplied fuel. -/
def matchSeqF : Nat → List (RItem × Quant) → List Char → Bool
  | 0, _, _ => false
  | _ + 1, [], cs => cs.isEmpty
  | _ + 1, (_, Quant.one) :: _, [] => false
  | fuel + 1, (i, Quant.one) :: rest, c :: cs2 => i.accepts c && matchSeqF fuel rest cs2
  | fuel + 1, (_, Quant.opt) :: rest, [] => matchSeqF fuel rest []
  | fuel + 1, (i, Quant.opt) :: rest, c :: cs2 =>
    matchSeqF fuel rest (c :: cs2) || (i.accepts c && matchSeqF fuel rest cs2)
  | fuel + 1, (_, Quant.star) :: rest, [] => matchSeqF fuel rest []
  | fuel + 1, (i, Quant.star) :: rest, c :: cs2 =>
    matchSeqF fuel rest (c :: cs2) || (i.accepts c && matchSeqF fuel ((i, Quant.star) :: rest) cs2)

/-- Whole-input matcher with adequate fuel. -/
def matchSeq (es : List (RItem × Quant)) (cs : List Char) : Bool :=
  matchSeqF (es.length + cs.length + 1) es cs

/-- Fuel-indexed matcher for a prefix of the input: used when the
pattern has no end anchor. -/
def matchPfxF : Nat → List (RItem × Quant) → List Char → Bool
  | 0, _, _ => false
  | _ + 1, [], _ => true
  | _ + 1, (_, Quant.one) :: _, [] => false
  | fuel + 1, (i, Quant.one) :: rest, c :: cs2 => i.accepts c && matchPfxF fuel rest cs2
  | fuel + 1, (_, Quant.opt) :: rest, [] => matchPfxF fuel rest []
  | fuel + 1, (i, Quant.opt) :: rest, c :: cs2 =>
    matchPfxF fuel rest (c :: cs2) || (i.accepts c && matchPfxF fuel rest cs2)
  | fuel + 1, (_, Quant.star) :: rest, [] => matchPfxF fuel rest []
  | fuel + 1, (i, Quant.star) :: rest, c :: cs2 =>
    matchPfxF fuel rest (c :: cs2) || (i.accepts c && matchPfxF fuel ((i, Quant.star) :: rest) cs2)

/-- Prefix matcher with adequate fuel. -/
def matchPfx (es : List (RItem × Quant)) (cs : List Char) : Bool :=
  matchPfxF (es.length + cs.length + 1) es cs

/-- All suffixes of a character list, longest first. -/
def allTails : List Char → List (List Char)
  | [] => [[]]
  | c :: cs => (c :: cs) :: allTails cs

/-- Does the compiled pattern match somewhere in the string, honouring
the anchoring flags. -/
def Regex.is_match (r : Regex) (s : String) : Bool :=
  if r.anchoredStart then
    (if r.anchoredEnd then matchSeq r.elems s.data else matchPfx r.elems s.data)
  else
    (allTails s.data).any fun cs =>
      if r.anchoredEnd then matchSeq r.elems cs else matchPfx r.elems cs

/-- The exact pattern string the source hands to the regular-expression
library inside parse_metadata. -/
def hintPattern : String := String.mk
  ['^', '[', '\x27', '\x22', ']', '?',
   '[', '^', '\x22', '\x27', '\x7b', '\x7d', '\\', '[', '\\', ']', ']', '*',
   '[', '\x27', '\x22', ']', '?', '$']

/-- The hint diagnostic text of parse_metadata, with the original input
substituted between double quotes inside single quotes. -/
def hintMsg (s : String) : String :=
  "did you remember to double quote strings, like --metadata " ++
    String.mk ['\x27', '\x22'] ++ s ++ String.mk ['\x22', '\x27']

/-- Embedding of parse_metadata from the source: absent input succeeds
with no value; otherwise parse as JSON, and on JSON failure consult the
hint heuristic before reporting. -/
def parse_metadata (arg : Option String) : Except String (Option JsonValue) :=
  match arg with
  | none => .ok none
  | some s =>
    match from_str s with
    | .ok v => .ok (some v)
    | .error e =>
      match Regex.new hintPattern with
      | .error rex => .error rex
      | .ok re => if re.is_match s then .error (hintMsg s) else .error e

/-! Specification-side reading of the hint heuristic: after optionally
stripping one leading and one trailing quote character, the remainder
contains none of the six structural characters. -/

/-- Quote characters the heuristic may strip. -/
def isQuoteChar (c : Char) : Bool := c == '\x27' || c == '\x22'

/-- The six characters the heuristic forbids in the interior: double
quote, single quote, both braces and both brackets. -/
def isStructChar (c : Char) : Bool :=
  c == '\x22' || (c == '\x27' || (c == '\x7b' || (c == '\x7d' || (c == '[' || c == ']'))))

/-- A character list free of all six structural characters. -/
def innerClean (cs : List Char) : Bool := cs.all fun c => !(isStructChar c)

/-- The interiors obtainable by optionally stripping one leading quote. -/
def leadCandidates : List Char → List (List Char)
  | [] => [[]]
  | c :: cs => if isQuoteChar c then [cs, c :: cs] else [c :: cs]

/-- The interiors obtainable by optionally stripping one trailing quote. -/
def trailCandidates : List Char → List (List Char)
  | [] => [[]]
  | [c] => if isQuoteChar c then [[], [c]] else [[c]]
  | c :: cs => (trailCandidates cs).map fun t => c :: t

/-- Specification wording of the hint heuristic, tested against the
original unmodified input string. -/
def looksUnquoted (s : String) : Bool :=
  (leadCandidates s.data).any fun m => (trailCandidates m).any innerClean

/-- The compiled form of the hint pattern. -/
def hintRegexVal : Regex :=
  ⟨true, true,
   [(RItem.cls false ['\x27', '\x22'], Quant.opt),
    (RItem.cls true ['\x22', '\x27', '\x7b', '\x7d', '[', ']'], Quant.star),
    (RItem.cls false ['\x27', '\x22'], Quant.opt)]⟩

/-- Residual acceptance of the final optional quote item. -/
def qTail : List Char → Bool
  | [] => true
  | [c] => isQuoteChar c
  | _ :: _ :: _ => false

theorem accepts_quote_cls (c : Char) :
    RItem.accepts (RItem.cls false ['\x27', '\x22']) c = isQuoteChar c := by
  simp [RItem.accepts, charIn, isQuoteChar]

theorem accepts_struct_cls (c : Char) :
    RItem.accepts (RItem.cls true ['\x22', '\x27', '\x7b', '\x7d', '[', ']']) c
      = !(isStructChar c) := by
  simp [RItem.accepts, charIn, isStructChar]

theorem matchSeqF_nil_elems (fuel : Nat) (cs : List Char) (h : 1 ≤ fuel) :
    matchSeqF fuel [] cs = cs.isEmpty := by
  cases fuel with
  | zero => omega
  | succ f => rfl

theorem matchSeqF_q (cs : List Char) (fuel : Nat) (h : cs.length + 2 ≤ fuel) :
    matchSeqF fuel [(RItem.cls false ['\x27', '\x22'], Quant.opt)] cs = qTail cs := by
  cases fuel with
  | zero => omega
  | succ f =>
    have h1 : 1 ≤ f := by omega
    cases cs with
    | nil => simp [matchSeqF, matchSeqF_nil_elems f [] h1, qTail]
    | cons c cs2 =>
      simp [matchSeqF, matchSeqF_nil_elems f _ h1, accepts_quote_cls]
      cases cs2 <;> simp [qTail]

theorem innerClean_cons (c : Char) (cs : List Char) :
    innerClean (c :: cs) = (!(isStructChar c) && innerClean cs) := by
  simp [innerClean]

theorem any_innerClean_cons (c : Char) (L : List (List Char)) :
    ((L.map fun t => c :: t).any innerClean) = (!(isStructChar c) && L.any innerClean) := by
  induction L with
  | nil => simp
  | cons t L ih =>
    cases hc : isStructChar c <;>
      simp [List.any_cons, innerClean_cons, hc, ih]

theorem matchSeqF_tail (cs : List Char) : ∀ fuel : Nat, cs.length + 3 ≤ fuel →
    matchSeqF fuel
        [(RItem.cls true ['\x22', '\x27', '\x7b', '\x7d', '[', ']'], Quant.star),
         (RItem.cls false ['\x27', '\x22'], Quant.opt)] cs
      = (trailCandidates cs).any innerClean := by
  induction cs with
  | nil =>
    intro fuel h
    cases fuel with
    | zero => omega
    | succ f =>
      have h2 : (0 : Nat) + 2 ≤ f := by omega
      simp [matchSeqF, matchSeqF_q [] f (by omega), qTail, trailCandidates, innerClean]
  | cons c cs2 ih =>
    intro fuel h
    cases fuel with
    | zero => omega
    | succ f =>
      have hq1 : (c :: cs2).length + 2 ≤ f := by simp at h ⊢; omega
      have hq2 : cs2.length + 3 ≤ f := by simp at h; omega
      rw [show matchSeqF (f + 1)
            [(RItem.cls true ['\x22', '\x27', '\x7b', '\x7d', '[', ']'], Quant.star),
             (RItem.cls false ['\x27', '\x22'], Quant.opt)] (c :: cs2)
          = (matchSeqF f [(RItem.cls false ['\x27', '\x22'], Quant.opt)] (c :: cs2) ||
              (RItem.accepts (RItem.cls true ['\x22', '\x27', '\x7b', '\x7d', '[', ']']) c &&
                matchSeqF f
                  [(RItem.cls true ['\x22', '\x27', '\x7b', '\x7d', '[', ']'], Quant.star),
                   (RItem.cls false ['\x27', '\x22'], Quant.opt)] cs2)) from rfl]
      rw [matchSeqF_q (c :: cs2) f hq1, ih f hq2, accepts_struct_cls]
      cases cs2 with
      | nil =>
        cases hqc : isQuoteChar c <;>
          simp [qTail, trailCandidates, innerClean, hqc]
      | cons c2 cs3 =>
        rw [show trailCandidates (c :: c2 :: cs3)
              = (trailCandidates (c2 :: cs3)).map (fun t => c :: t) from rfl]
        rw [any_innerClean_cons]
        simp [qTail]

theorem matchSeqF_full (cs : List Char) : ∀ fuel : Nat, cs.length + 4 ≤ fuel →
    matchSeqF fuel hintRegexVal.elems cs
      = (leadCandidates cs).any fun m => (trailCandidates m).any innerClean := by
  intro fuel h
  cases fuel with
  | zero => omega
  | succ f =>
    cases cs with
    | nil =>
      simp [hintRegexVal, matchSeqF, matchSeqF_tail [] f (by omega), trailCandidates,
        leadCandidates, innerClean]
    | cons c cs2 =>
      have ht1 : (c :: cs2).length + 3 ≤ f := by simp at h ⊢; omega
      have ht2 : cs2.length + 3 ≤ f := by simp at h; omega
      rw [show matchSeqF (f + 1) hintRegexVal.elems (c :: cs2)
          = (matchSeqF f
               [(RItem.cls true ['\x22', '\x27', '\x7b', '\x7d', '[', ']'], Quant.star),
                (RItem.cls false ['\x27', '\x22'], Quant.opt)] (c :: cs2) ||
             (RItem.accepts (RItem.cls false ['\x27', '\x22']) c &&
               matchSeqF f
                 [(RItem.cls true ['\x22', '\x27', '\x7b', '\x7d', '[', ']'], Quant.star),
                  (RItem.cls false ['\x27', '\x22'], Quant.opt)] cs2)) from rfl]
      rw [matchSeqF_tail (c :: cs2) f ht1, matchSeqF_tail cs2 f ht2, accepts_quote_cls]
      cases hqc : isQuoteChar c <;>
        simp [leadCandidates, hqc, Bool.or_comm]

theorem is_match_eq_looksUnquoted (s : String) :
    hintRegexVal.is_match s = looksUnquoted s := by
  have h := matchSeqF_full s.data (s.data.length + 4) (by omega)
  simp only [Regex.is_match, hintRegexVal, if_true, matchSeq, looksUnquoted]
  simp only [hintRegexVal] at h
  rw [show (⟨true, true,
       [(RItem.cls false ['\x27', '\x22'], Quant.opt),
        (RItem.cls true ['\x22', '\x27', '\x7b', '\x7d', '[', ']'], Quant.star),
        (RItem.cls false ['\x27', '\x22'], Quant.opt)]⟩ : Regex).elems.length
      = 3 from rfl]
  rw [show (3 : Nat) + s.data.length + 1 = s.data.length + 4 by omega]
  exact h

/-! Serialization of JSON values back to text, modelling the to_string
call the source applies to the metadata value when building the
multipart form. -/

/-- Hexadecimal digit character for a value below sixteen. -/
def hexDigit (n : Nat) : Char := if n < 10 then Char.ofNat (48 + n) else Char.ofNat (87 + n)

/-- Escape one character for a serialized JSON string. -/
def escChar (c : Char) : List Char :=
  if c = '\x22' then ['\\', '\x22']
  else if c = '\\' then ['\\', '\\']
  else if c = '\n' then ['\\', 'n']
  else if c = '\r' then ['\\', 'r']
  else if c = '\t' then ['\\', 't']
  else if c = '\x08' then ['\\', 'b']
  else if c = '\x0c' then ['\\', 'f']
  else if c.toNat < 32 then ['\\', 'u', '0', '0', hexDigit (c.toNat / 16), hexDigit (c.toNat % 16)]
  else [c]

/-- Serialize a string with surrounding double quotes and escapes. -/
def quoteStr (s : String) : String :=
  String.mk ('\x22' :: s.data.foldr (fun c acc => escChar c ++ acc) ['\x22'])

/-- Compact serialization of a JSON value, modelling the to_string of
the external JSON library. -/
def JsonValue.toString : JsonValue → String
  | .null => "null"
  | .bool true => "true"
  | .bool false => "false"
  | .num lexeme => lexeme
  | .str s => quoteStr s
  | .arr elems =>
    "[" ++ String.intercalate ","
      (elems.attach.map fun x => JsonValue.toString x.1) ++ "]"
  | .obj members =>
    "\x7b" ++ String.intercalate ","
      (members.attach.map fun x => quoteStr x.1.1 ++ ":" ++ JsonValue.toString x.1.2) ++ "\x7d"
termination_by v => sizeOf v
decreasing_by
  · have := List.sizeOf_lt_of_mem x.2
    simp [JsonValue.arr.sizeOf_spec]
    try omega
  · have h1 := List.sizeOf_lt_of_mem x.2
    have h2 : sizeOf x.1.2 < sizeOf x.1 := by
      cases hx : x.1 with
      | mk a b =>
        simp [hx] at h1 ⊢
        try omega
    simp [JsonValue.obj.sizeOf_spec]
    try omega

/-! Model of the put command proper. The external collaborators the
source calls (target validation, key encoding, the filesystem, the
authenticated HTTP client) are supplied through an explicit environment,
so every function below is a pure function of the request data and of
the answers the environment returns. -/

/-- Target context; only the account identifier is read by put. -/
structure Target where
  account_id : String

/-- The request descriptor KVMetaData from the source. -/
structure KVMetaData where
  namespace_id : String
  key : String
  value : String
  is_file : Bool
  expiration : Option String
  expiration_ttl : Option String
  metadata : Option JsonValue

/-- One structured API error of the provider error envelope. -/
structure ApiError where
  code : Nat
  message : String

/-- The provider error envelope: a sequence of code and message pairs.
Its default value, used when the body fails to parse, is the empty
list. -/
structure ApiErrors where
  errors : List ApiError

/-- Result of a filesystem stat call on a path: the two type flags the
source inspects. A value with both flags false stands for a symbolic
link or any other non-regular-file, non-directory type. -/
structure FileMeta where
  isFile : Bool
  isDir : Bool

/-- A plain request body: owned bytes or a stream over a file path. -/
inductive Body where
  | bytes (contents : String)
  | stream (path : String)

/-- One part of a multipart form: literal text or a streamed file. -/
inductive Part where
  | text (contents : String)
  | fileStream (path : String)

/-- The wire payload of the request: either a raw body with no
multipart framing, or a multipart form of named parts. -/
inductive RequestBody where
  | raw (body : Body)
  | multipart (parts : List (String × Part))

/-- A parsed URL: the base endpoint and its query parameters in order.
Modelled from the url library: parse_with_params records the appended
query pairs. -/
structure Url where
  base : String
  query : List (String × String)

/-- Modelled from the url library: building a URL from the well-formed
endpoint string and explicit query pairs records them in order. -/
def Url.parse_with_params (base : String) (params : List (String × String)) :
    Except String Url :=
  .ok ⟨base, params⟩

/-- Query string serialization of a URL. -/
def Url.queryString (u : Url) : String :=
  String.intercalate "&" (u.query.map fun p => p.1 ++ "=" ++ p.2)

/-- An HTTP response: its status code and the result of attempting to
parse its body as the provider error envelope. -/
structure Response where
  status : Nat
  jsonBody : Except String ApiErrors

/-- Answers of the external collaborators: target validation, key
encoding, filesystem stat and open, multipart file-part construction,
and the network send. -/
structure Env where
  validateTarget : Target → Except String Unit
  urlEncodeKey : String → String
  fsMeta : String → Except String FileMeta
  fileOpen : String → Except String Unit
  partFile : String → Except String Unit
  send : RequestBody → Url → Except String Response

/-- What put shows the user: the success message, or the formatted API
error report fed with the status and the parsed-or-empty error list. -/
inductive Output where
  | success (msg : String)
  | apiError (status : Nat) (errors : ApiErrors)

/-- Success range of HTTP statuses. -/
def isSuccess (status : Nat) : Bool := 200 ≤ status && status ≤ 299

/-- Diagnostic for a directory where a file was expected. -/
def dirMsg (v : String) : String :=
  "--path argument takes a file, " ++ v ++ " is a directory"

/-- Diagnostic for a symlink or other non-regular file. -/
def symlinkMsg (v : String) : String :=
  "--path argument takes a file, " ++ v ++ " is a symlink"

/-- Embedding of get_request_body: with is_file set, stat the path and
stream a regular file, reject a directory or any other kind, and pass a
stat error through; otherwise the body is the raw value bytes. -/
def get_request_body (env : Env) (d : KVMetaData) : Except String Body :=
  if d.is_file then
    match env.fsMeta d.value with
    | .ok m =>
      if m.isFile then
        match env.fileOpen d.value with
        | .ok _ => .ok (Body.stream d.value)
        | .error e => .error e
      else if m.isDir then .error (dirMsg d.value)
      else .error (symlinkMsg d.value)
    | .error e => .error e
  else .ok (Body.bytes d.value)

/-- The request body get_response emits: with metadata present, a
multipart form of the two named parts value and metadata; with metadata
absent, the raw resolved body. The source builds this request inline
right before sending; it is factored out here so the emitted request is
observable. -/
def build_request (env : Env) (d : KVMetaData) : Except String RequestBody :=
  match d.metadata with
  | some md =>
    (match (if d.is_file then
              match env.partFile d.value with
              | .ok _ => .ok (Part.fileStream d.value)
              | .error e => .error e
            else .ok (Part.text d.value) : Except String Part) with
     | .ok part =>
       .ok (RequestBody.multipart [("value", part), ("metadata", Part.text md.toString)])
     | .error e => .error e)
  | none =>
    match get_request_body env d with
    | .ok b => .ok (RequestBody.raw b)
    | .error e => .error e

/-- Embedding of get_response: build the request body and send it with
the authenticated client. -/
def get_response (env : Env) (d : KVMetaData) (url : Url) : Except String Response :=
  match build_request env d with
  | .ok req => env.send req url
  | .error e => .error e

/-- The endpoint string put formats from the account, namespace and
encoded key. -/
def api_endpoint (encodeKey : String → String) (t : Target) (d : KVMetaData) : String :=
  "https://api.cloudflare.com/client/v4/accounts/" ++ t.account_id ++
    "/storage/kv/namespaces/" ++ d.namespace_id ++ "/values/" ++ encodeKey d.key

/-- The query parameters put collects: expiration first when present,
then expiration_ttl when present. -/
def query_params (d : KVMetaData) : List (String × String) :=
  (match d.expiration with
   | some exp => [("expiration", exp)]
   | none => []) ++
  (match d.expiration_ttl with
   | some ttl => [("expiration_ttl", ttl)]
   | none => [])

/-- The error list put reports: the parsed envelope, or the default
empty envelope when the body parse failed. -/
def errorsOrDefault (r : Except String ApiErrors) : ApiErrors :=
  match r with
  | .ok es => es
  | .error _ => ⟨[]⟩

/-- Embedding of put: validate the target, build the URL, send the
request, then either report success or print the formatted API error
report; an Output in the ok result is what reaches the user, while an
error result is a propagated fatal error with nothing printed by put
itself. -/
def put (env : Env) (target : Target) (d : KVMetaData) : Except String Output :=
  match env.validateTarget target with
  | .error e => .error e
  | .ok _ =>
    match Url.parse_with_params (api_endpoint env.urlEncodeKey target d) (query_params d) with
    | .error e => .error e
    | .ok url =>
      match get_response env d url with
      | .error e => .error e
      | .ok res =>
        if isSuccess res.status then .ok (Output.success "Success")
        else .ok (Output.apiError res.status (errorsOrDefault res.jsonBody))

/-- Boolean success test of a fallible result. -/
def isOkE {α : Type} (r : Except String α) : Bool :=
  match r with
  | .ok _ => true
  | .error _ => false

/-! Concrete environments and request data used by the witnesses. -/

/-- Environment whose collaborators all succeed and whose remote answers
status 400 with an unparseable body. -/
def envA : Env :=
  ⟨fun _ => .ok (), id, fun _ => .ok ⟨false, false⟩, fun _ => .ok (), fun _ => .ok (),
   fun _ _ => .ok ⟨400, .error "invalid error payload"⟩⟩

/-- Simple target context. -/
def tgtA : Target := ⟨"account"⟩

/-- Plain literal-value request with no metadata and no expirations. -/
def dataA : KVMetaData := ⟨"ns", "k", "v", false, none, none, none⟩

/-- Environment whose stat call reports neither a regular file nor a
directory, standing for a symbolic link. -/
def envD : Env :=
  ⟨fun _ => .ok (), id, fun _ => .ok ⟨false, false⟩, fun _ => .ok (), fun _ => .ok (),
   fun _ _ => .ok ⟨200, .error "x"⟩⟩

/-- File-backed request whose path is a symbolic link. -/
def dataD : KVMetaData := ⟨"ns", "k", "link", true, none, none, none⟩

/-- Environment whose stat call reports a regular file. -/
def envG : Env :=
  ⟨fun _ => .ok (), id, fun _ => .ok ⟨true, false⟩, fun _ => .ok (), fun _ => .ok (),
   fun _ _ => .ok ⟨200, .error "x"⟩⟩

/-- File-backed request whose path is a regular file. -/
def dataG : KVMetaData := ⟨"ns", "k", "file.txt", true, none, none, none⟩

/-- Request carrying an absolute expiration and no ttl. -/
def dataExp : KVMetaData := ⟨"ns", "key", "val", false, some "100", none, none⟩

/-! Claim theorems. -/

/-- C1: whenever the remote response carries a status outside the
success range, put parses the body as the provider error envelope,
falls back to the empty error list when that parse fails, hands the
status and that list to the error formatter as its printed report, and
still returns success rather than propagating an error. -/
theorem put_reports_api_error (env : Env) (t : Target) (d : KVMetaData) (res : Response)
    (hv : env.validateTarget t = .ok ())
    (hr : get_response env d ⟨api_endpoint env.urlEncodeKey t d, query_params d⟩ = .ok res)
    (hs : isSuccess res.status = false) :
    put env t d = .ok (Output.apiError res.status (errorsOrDefault res.jsonBody)) ∧
    ∀ m : String, res.jsonBody = .error m → errorsOrDefault res.jsonBody = ⟨[]⟩ := by
  constructor
  · simp [put, hv, Url.parse_with_params, hr, hs]
  · intro m hm
    simp [errorsOrDefault, hm]

/-- Witness for C1 at a concrete environment answering 400 with an
unparseable body. -/
theorem put_reports_api_error_witness :
    put envA tgtA dataA = .ok (Output.apiError 400 ⟨[]⟩) := by
  have h := put_reports_api_error envA tgtA dataA ⟨400, .error "invalid error payload"⟩
    rfl rfl rfl
  exact h.1

/-- C2: with metadata present the emitted request is a multipart form
with exactly the two parts named value and metadata, the value part
being a streamed file attachment when is_file is set and the literal
value text otherwise, and the metadata part being the serialized
metadata text; with metadata absent the emitted request is the raw
resolved body with no multipart framing, in particular the literal
value bytes when is_file is unset. -/
theorem request_encoding (env : Env) (d : KVMetaData) (md : JsonValue) (b : Body) :
    (d.metadata = some md → d.is_file = false →
      build_request env d =
        .ok (RequestBody.multipart
          [("value", Part.text d.value), ("metadata", Part.text md.toString)])) ∧
    (d.metadata = some md → d.is_file = true → env.partFile d.value = .ok () →
      build_request env d =
        .ok (RequestBody.multipart
          [("value", Part.fileStream d.value), ("metadata", Part.text md.toString)])) ∧
    (d.metadata = none → get_request_body env d = .ok b →
      build_request env d = .ok (RequestBody.raw b)) ∧
    (d.metadata = none → d.is_file = false →
      build_request env d = .ok (RequestBody.raw (Body.bytes d.value))) := by
  refine ⟨?_, ?_, ?_, ?_⟩
  · intro hmd hf
    simp [build_request, hmd, hf]
  · intro hmd hf hp
    simp [build_request, hmd, hf, hp]
  · intro hmd hb
    simp [build_request, hmd, hb]
  · intro hmd hf
    simp [build_request, hmd, get_request_body, hf]

/-- Witness for C2 at a literal-value request with boolean metadata. -/
theorem request_encoding_witness :
    build_request envA ⟨"ns", "k", "v", false, none, none, some (JsonValue.bool true)⟩ =
      .ok (RequestBody.multipart
        [("value", Part.text "v"),
         ("metadata", Part.text ((JsonValue.bool true).toString))]) :=
  (request_encoding envA ⟨"ns", "k", "v", false, none, none, some (JsonValue.bool true)⟩
    (JsonValue.bool true) (Body.bytes "v")).1 rfl rfl

/-- C3: every string rejected by the JSON parser but matched by the
strip-one-quote heuristic, tested against the original input, fails
with exactly the double-quoting hint message carrying the input
verbatim; in particular the six unquoted-string examples do. -/
theorem hint_heuristic (s e : String)
    (hj : from_str s = .error e) (hm : looksUnquoted s = true) :
    parse_metadata (some s) = .error (hintMsg s) ∧
    parse_metadata (some "abc") = .error (hintMsg "abc") ∧
    parse_metadata (some "\x27abc\x27") = .error (hintMsg "\x27abc\x27") ∧
    parse_metadata (some "\x27abc") = .error (hintMsg "\x27abc") ∧
    parse_metadata (some "abc\x27") = .error (hintMsg "abc\x27") ∧
    parse_metadata (some "\x22abc") = .error (hintMsg "\x22abc") ∧
    parse_metadata (some "abc\x22") = .error (hintMsg "abc\x22") := by
  refine ⟨?_, rfl, rfl, rfl, rfl, rfl, rfl⟩
  have hnew : Regex.new hintPattern = .ok hintRegexVal := rfl
  simp [parse_metadata, hj, hnew, is_match_eq_looksUnquoted, hm]

/-- Witness for C3 at the plain unquoted input. -/
theorem hint_heuristic_witness :
    parse_metadata (some "abc") = .error (hintMsg "abc") :=
  (hint_heuristic "abc" "expected value" rfl rfl).1

/-- C4: with metadata absent, is_file set and the path reporting
neither a regular file nor a directory, body resolution fails with the
symlink diagnostic carrying the path, and no request reaches the
network client. -/
theorem symlink_rejected (env : Env) (d : KVMetaData) (m : FileMeta)
    (hf : d.is_file = true) (hm : env.fsMeta d.value = .ok m)
    (h1 : m.isFile = false) (h2 : m.isDir = false) :
    get_request_body env d = .error (symlinkMsg d.value) ∧
    (d.metadata = none →
      ∀ (url : Url) (send2 : RequestBody → Url → Except String Response),
        get_response { env with send := send2 } d url = .error (symlinkMsg d.value)) := by
  have hb : ∀ env2 : Env, env2.fsMeta = env.fsMeta →
      get_request_body env2 d = .error (symlinkMsg d.value) := by
    intro env2 he
    simp [get_request_body, hf, he, hm, h1, h2]
  constructor
  · exact hb env rfl
  · intro hmd url send2
    simp [get_response, build_request, hmd, hb { env with send := send2 } rfl]

/-- Witness for C4 at a concrete symlink path. -/
theorem symlink_rejected_witness :
    get_request_body envD dataD = .error (symlinkMsg "link") ∧
    get_response envD dataD ⟨"b", []⟩ = .error (symlinkMsg "link") := by
  have h := symlink_rejected envD dataD ⟨false, false⟩ rfl rfl rfl rfl
  exact ⟨h.1, h.2 rfl ⟨"b", []⟩ envD.send⟩

/-- C5: parse_metadata succeeds exactly on absent input or JSON-valid
text: absent input yields no value, every successful JSON parse is
passed through as the parsed value, the six valid literal examples all
parse, the three invalid examples all fail, and every string the JSON
parser rejects makes parse_metadata fail. -/
theorem parse_metadata_spec (s : String) (v : JsonValue)
    (h : from_str s = .ok v) :
    parse_metadata none = .ok none ∧
    parse_metadata (some s) = .ok (some v) ∧
    parse_metadata (some "true") = .ok (some (JsonValue.bool true)) ∧
    parse_metadata (some "false") = .ok (some (JsonValue.bool false)) ∧
    parse_metadata (some "123.456") = .ok (some (JsonValue.num "123.456")) ∧
    parse_metadata (some "\x22some string\x22") = .ok (some (JsonValue.str "some string")) ∧
    parse_metadata (some "[1, 2]") =
      .ok (some (JsonValue.arr [JsonValue.num "1", JsonValue.num "2"])) ∧
    parse_metadata (some "\x7b\x22key\x22: \x22value\x22\x7d") =
      .ok (some (JsonValue.obj [("key", JsonValue.str "value")])) ∧
    isOkE (parse_metadata (some "something")) = false ∧
    isOkE (parse_metadata (some "\x7bkey: 123\x7d")) = false ∧
    isOkE (parse_metadata (some "[1, 2")) = false ∧
    (∀ s2 e2 : String, from_str s2 = .error e2 →
      isOkE (parse_metadata (some s2)) = false) := by
  refine ⟨rfl, ?_, rfl, rfl, rfl, rfl, rfl, rfl, rfl, rfl, rfl, ?_⟩
  · simp [parse_metadata, h]
  · intro s2 e2 hj
    have hnew : Regex.new hintPattern = .ok hintRegexVal := rfl
    cases hb : hintRegexVal.is_match s2 <;>
      simp [parse_metadata, hj, hnew, hb, isOkE]

/-- Witness for C5 at the bare literal true. -/
theorem parse_metadata_spec_witness :
    from_str "true" = .ok (JsonValue.bool true) ∧
    parse_metadata (some "true") = .ok (some (JsonValue.bool true)) :=
  ⟨rfl, (parse_metadata_spec "true" (JsonValue.bool true) rfl).2.1⟩

/-- C6: the URL query carries expiration exactly when the request sets
it and expiration_ttl exactly when the request sets that, expiration
coming first when both are present; with expiration 100 and no ttl the
query string is exactly expiration=100. -/
theorem expiration_query_parameters (ns k v : String) (f : Bool) (md : Option JsonValue)
    (e t : String) :
    query_params ⟨ns, k, v, f, some e, some t, md⟩ =
      [("expiration", e), ("expiration_ttl", t)] ∧
    query_params ⟨ns, k, v, f, some e, none, md⟩ = [("expiration", e)] ∧
    query_params ⟨ns, k, v, f, none, some t, md⟩ = [("expiration_ttl", t)] ∧
    query_params ⟨ns, k, v, f, none, none, md⟩ = [] ∧
    Url.parse_with_params (api_endpoint id ⟨"acct"⟩ dataExp) (query_params dataExp) =
      .ok ⟨api_endpoint id ⟨"acct"⟩ dataExp, [("expiration", "100")]⟩ ∧
    Url.queryString ⟨api_endpoint id ⟨"acct"⟩ dataExp, query_params dataExp⟩ =
      "expiration=100" :=
  ⟨rfl, rfl, rfl, rfl, rfl, rfl⟩

/-- C7: with metadata absent and is_file set, a regular file resolves
to a streamed body over the path (propagating an open failure), a
directory fails with the directory diagnostic, and a stat failure
passes the underlying error text through. -/
theorem file_body_resolution (env : Env) (d : KVMetaData) (m : FileMeta) (e : String)
    (hf : d.is_file = true) :
    (env.fsMeta d.value = .ok m → m.isFile = true →
      get_request_body env d =
        (match env.fileOpen d.value with
         | .ok _ => .ok (Body.stream d.value)
         | .error err => .error err)) ∧
    (env.fsMeta d.value = .ok m → m.isFile = false → m.isDir = true →
      get_request_body env d = .error (dirMsg d.value)) ∧
    (env.fsMeta d.value = .error e → get_request_body env d = .error e) := by
  refine ⟨?_, ?_, ?_⟩
  · intro hm hfile
    cases ho : env.fileOpen d.value <;>
      simp [get_request_body, hf, hm, hfile, ho]
  · intro hm hfile hdir
    simp [get_request_body, hf, hm, hfile, hdir]
  · intro hm
    simp [get_request_body, hf, hm]

/-- Witness for C7 at a concrete regular file. -/
theorem file_body_resolution_witness :
    get_request_body envG dataG = .ok (Body.stream "file.txt") :=
  (file_body_resolution envG dataG ⟨true, false⟩ "e" rfl).1 rfl rfl

/-- C8: every string the JSON parser rejects and the hint heuristic
does not match fails with exactly the underlying parser error text,
unmodified. -/
theorem raw_error_passthrough (s e : String)
    (hj : from_str s = .error e) (hm : looksUnquoted s = false) :
    parse_metadata (some s) = .error e := by
  have hnew : Regex.new hintPattern = .ok hintRegexVal := rfl
  simp [parse_metadata, hj, hnew, is_match_eq_looksUnquoted, hm]

/-- Witness for C8 at an object with an unquoted key. -/
theorem raw_error_passthrough_witness :
    parse_metadata (some "\x7bkey: 123\x7d") = .error "key must be a string" :=
  raw_error_passthrough "\x7bkey: 123\x7d" "key must be a string" rfl rfl

/-- C9: every invocation of put yields exactly one of the three
user-visible outcomes: the Success message together with a
success-range response, a formatted API error report whose status is
outside the success range, or a propagated fatal error with no output
of its own. -/
theorem put_outcome_trichotomy (env : Env) (t : Target) (d : KVMetaData) :
    (put env t d = .ok (Output.success "Success") ∧
      ∃ res : Response,
        get_response env d ⟨api_endpoint env.urlEncodeKey t d, query_params d⟩ = .ok res ∧
        isSuccess res.status = true) ∨
    (∃ (st : Nat) (errs : ApiErrors),
      put env t d = .ok (Output.apiError st errs) ∧ isSuccess st = false) ∨
    (∃ m : String, put env t d = .error m) := by
  cases hv : env.validateTarget t with
  | error e => exact Or.inr (Or.inr ⟨e, by simp [put, hv]⟩)
  | ok u =>
    cases hr : get_response env d ⟨api_endpoint env.urlEncodeKey t d, query_params d⟩ with
    | error e =>
      exact Or.inr (Or.inr ⟨e, by simp [put, hv, Url.parse_with_params, hr]⟩)
    | ok res =>
      cases hs : isSuccess res.status with
      | true =>
        exact Or.inl ⟨by simp [put, hv, Url.parse_with_params, hr, hs], res, rfl, hs⟩
      | false =>
        exact Or.inr (Or.inl ⟨res.status, errorsOrDefault res.jsonBody,
          by simp [put, hv, Url.parse_with_params, hr, hs], hs⟩)

/-- C10: compiling the heuristic pattern never fails, so the setup
error branch inside parse_metadata is unreachable and the function
succeeds exactly when the JSON parse does. -/
theorem regex_heuristic_never_fails :
    Regex.new hintPattern = .ok hintRegexVal ∧
    ∀ s : String, isOkE (parse_metadata (some s)) = isOkE (from_str s) := by
  refine ⟨rfl, ?_⟩
  intro s
  cases hj : from_str s with
  | ok v => simp [parse_metadata, hj, isOkE]
  | error e =>
    have hnew : Regex.new hintPattern = .ok hintRegexVal := rfl
    cases hb : hintRegexVal.is_match s <;>
      simp [parse_metadata, hj, hnew, hb, isOkE]

end KVPut
